import Mathlib

/-!
Verification of the `labview_automation` package (client.py and labview.py)
against its natural-language specification.

The development shallowly embeds the two source modules:

* `client.py`: the TCP/BSON wire client (`LabVIEWClient`).  The BSON
  serialization performed by the external `bson` package (pymongo) is modelled
  at the byte level: documents are int32-little-endian length-prefixed element
  lists, elements are a type byte, a NUL-terminated UTF-8 key and a typed
  payload, exactly as the BSON spec and pymongo implement them for the types
  this program exchanges (string, int32/int64, boolean, null, nested document,
  array).  Socket reads are modelled by a byte stream plus a delivery
  schedule: `recv n` returns at most `n` bytes and returns the empty list
  exactly when the peer has closed the stream.

* `labview.py`: the process-lifecycle controller (`LabVIEW`,
  `LabVIEWHelpers`).  The external `psutil` and `subprocess` facilities are
  modelled by an environment mapping pids to executable paths and run states;
  `psutil.Process.wait(timeout)` raises `TimeoutExpired` when the process does
  not exit within the timeout, which the model surfaces as an `Except` error.

Python truth-testing of decoded BSON values (`if return_dict[...]:`) is
modelled by `truthy`; Python `str.lower` is modelled on the ASCII fragment by
`pyLower`.
-/

/-! ## Little-endian byte encodings of integers -/

/-- Little-endian 4-byte encoding of a natural number (mod 2^32). -/
def le32 (n : Nat) : List Nat :=
  [n % 256, n / 256 % 256, n / 65536 % 256, n / 16777216 % 256]

/-- Recombine 4 little-endian bytes into a natural number. -/
def nat32 (b0 b1 b2 b3 : Nat) : Nat :=
  b0 + 256 * b1 + 65536 * b2 + 16777216 * b3

/-- Little-endian 8-byte encoding of a natural number (mod 2^64). -/
def le64 (n : Nat) : List Nat :=
  [n % 256, n / 256 % 256, n / 65536 % 256, n / 16777216 % 256,
   n / 4294967296 % 256, n / 1099511627776 % 256,
   n / 281474976710656 % 256, n / 72057594037927936 % 256]

/-- Recombine 8 little-endian bytes into a natural number. -/
def nat64 (b0 b1 b2 b3 b4 b5 b6 b7 : Nat) : Nat :=
  b0 + 256 * b1 + 65536 * b2 + 16777216 * b3 + 4294967296 * b4 +
  1099511627776 * b5 + 281474976710656 * b6 + 72057594037927936 * b7

/-- Two's-complement reading of a 32-bit unsigned value as a signed integer. -/
def sInt32 (m : Nat) : Int :=
  if m < 2 ^ 31 then (m : Int) else (m : Int) - 2 ^ 32

/-- Two's-complement reading of a 64-bit unsigned value as a signed integer. -/
def sInt64 (m : Nat) : Int :=
  if m < 2 ^ 63 then (m : Int) else (m : Int) - 2 ^ 64

/-- Two's-complement 32-bit image of a signed integer. -/
def toUn32 (n : Int) : Nat := (n % (2 ^ 32 : Int)).toNat

/-- Two's-complement 64-bit image of a signed integer. -/
def toUn64 (n : Int) : Nat := (n % (2 ^ 64 : Int)).toNat

/-- Read a little-endian signed int32 off the front of a byte list; fails when
fewer than 4 bytes remain (struct.error in the source). -/
def dec32 : List Nat → Option (Int × List Nat)
  | b0 :: b1 :: b2 :: b3 :: rest => some (sInt32 (nat32 b0 b1 b2 b3), rest)
  | _ => none

/-- Read a little-endian signed int64 off the front of a byte list. -/
def dec64 : List Nat → Option (Int × List Nat)
  | b0 :: b1 :: b2 :: b3 :: b4 :: b5 :: b6 :: b7 :: rest =>
    some (sInt64 (nat64 b0 b1 b2 b3 b4 b5 b6 b7), rest)
  | _ => none

/-! ## UTF-8, on Unicode code points -/

/-- UTF-8 encoding of one code point (valid code points are below 0x110000,
so at most four bytes). -/
def utf8Char (c : Nat) : List Nat :=
  if c < 128 then [c]
  else if c < 2048 then [192 + c / 64, 128 + c % 64]
  else if c < 65536 then [224 + c / 4096, 128 + c / 64 % 64, 128 + c % 64]
  else [240 + c / 262144, 128 + c / 4096 % 64, 128 + c / 64 % 64, 128 + c % 64]

/-- UTF-8 encoding of a character sequence. -/
def utf8Bytes : List Char → List Nat
  | [] => []
  | c :: cs => utf8Char c.toNat ++ utf8Bytes cs

/-- Decode one UTF-8 code point off the front of a byte list. -/
def utf8DecChar : List Nat → Option (Nat × List Nat)
  | [] => none
  | b0 :: r =>
    if b0 < 128 then some (b0, r)
    else if b0 < 192 then none
    else if b0 < 224 then
      match r with
      | b1 :: r1 =>
        if 128 ≤ b1 ∧ b1 < 192 then some ((b0 - 192) * 64 + (b1 - 128), r1) else none
      | _ => none
    else if b0 < 240 then
      match r with
      | b1 :: b2 :: r2 =>
        if (128 ≤ b1 ∧ b1 < 192) ∧ (128 ≤ b2 ∧ b2 < 192) then
          some ((b0 - 224) * 4096 + (b1 - 128) * 64 + (b2 - 128), r2)
        else none
      | _ => none
    else if b0 < 248 then
      match r with
      | b1 :: b2 :: b3 :: r3 =>
        if (128 ≤ b1 ∧ b1 < 192) ∧ (128 ≤ b2 ∧ b2 < 192) ∧ (128 ≤ b3 ∧ b3 < 192) then
          some ((b0 - 240) * 262144 + (b1 - 128) * 4096 + (b2 - 128) * 64 + (b3 - 128), r3)
        else none
      | _ => none
    else none

/-- Decode a whole byte list as UTF-8 (fuel-indexed; fuel bounds the number of
decoded characters, so the byte count is always enough fuel). -/
def utf8DecList : Nat → List Nat → Option (List Char)
  | _, [] => some []
  | 0, _ :: _ => none
  | f + 1, b :: bs =>
    match utf8DecChar (b :: bs) with
    | some (c, rest) =>
      match utf8DecList f rest with
      | some cs => some (Char.ofNat c :: cs)
      | none => none
    | none => none

/-- Decode a full byte list as a string. -/
def utf8Str (bs : List Nat) : Option String :=
  match utf8DecList bs.length bs with
  | some cs => some (String.mk cs)
  | none => none

/-- Split a byte list at its first NUL byte: the BSON cstring read. -/
def splitAtNul : List Nat → Option (List Nat × List Nat)
  | [] => none
  | 0 :: rest => some ([], rest)
  | b :: rest =>
    match splitAtNul rest with
    | some (pre, post) => some (b :: pre, post)
    | none => none

/-! ## BSON documents

Mutually inductive values / documents / arrays, mirroring the dynamic values
this program sends and receives: Python str, int, bool, None, dict, list. -/

mutual
inductive BVal where
  | str (s : String)
  | int (n : Int)
  | bool (b : Bool)
  | null
  | doc (d : BDoc)
  | arr (l : BList)
inductive BDoc where
  | nil
  | cons (k : String) (v : BVal) (rest : BDoc)
inductive BList where
  | nil
  | cons (v : BVal) (rest : BList)
end

/-- Python dict lookup `d[k]` (as an `Option`): first binding of the key. -/
def pyGet : BDoc → String → Option BVal
  | .nil, _ => none
  | .cons k v rest, key => if k = key then some v else pyGet rest key

/-- Python truth-testing of a decoded BSON value: `bool` is itself, numbers
are compared with zero, strings/dicts/lists are tested for emptiness, and
`None` is false. -/
def truthy : BVal → Bool
  | .bool b => b
  | .int n => decide (n ≠ 0)
  | .str s => decide (s ≠ "")
  | .null => false
  | .doc .nil => false
  | .doc (.cons _ _ _) => true
  | .arr .nil => false
  | .arr (.cons _ _) => true

/-- Forget the index keys of a decoded array document, keeping the values. -/
def stripKeys : BDoc → BList
  | .nil => .nil
  | .cons _ v rest => .cons v (stripKeys rest)

/-- The document a BSON array is serialized as: values keyed by their decimal
indices "0", "1", ... -/
def idxDoc : BList → Nat → BDoc
  | .nil, _ => .nil
  | .cons v rest, i => .cons (Nat.repr i) v (idxDoc rest (i + 1))

/-! ## BSON encoding (model of `bson.BSON.encode`)

`none` models the encoder raising: a NUL byte inside a key
(`InvalidDocument`), an integer beyond 64 bits (`OverflowError`), or a
length field that does not fit a signed int32 (struct.error). -/

mutual
def encVal : BVal → Option (Nat × List Nat)
  | .str s =>
    let b := utf8Bytes s.data
    if b.length + 1 < 2 ^ 31 then some (2, le32 (b.length + 1) ++ b ++ [0]) else none
  | .int n =>
    if -2 ^ 31 ≤ n ∧ n < 2 ^ 31 then some (16, le32 (toUn32 n))
    else if -2 ^ 63 ≤ n ∧ n < 2 ^ 63 then some (18, le64 (toUn64 n))
    else none
  | .bool b => some (8, [if b then 1 else 0])
  | .null => some (10, [])
  | .doc d =>
    match encBody d with
    | some body =>
      if body.length + 5 < 2 ^ 31 then some (3, le32 (body.length + 5) ++ body ++ [0])
      else none
    | none => none
  | .arr l =>
    match encIdx l 0 with
    | some body =>
      if body.length + 5 < 2 ^ 31 then some (4, le32 (body.length + 5) ++ body ++ [0])
      else none
    | none => none
def encBody : BDoc → Option (List Nat)
  | .nil => some []
  | .cons k v rest =>
    let kb := utf8Bytes k.data
    if 0 ∈ kb then none
    else
      match encVal v, encBody rest with
      | some (t, p), some tail => some (t :: (kb ++ [0] ++ p ++ tail))
      | _, _ => none
def encIdx : BList → Nat → Option (List Nat)
  | .nil, _ => some []
  | .cons v rest, i =>
    let kb := utf8Bytes (Nat.repr i).data
    if 0 ∈ kb then none
    else
      match encVal v, encIdx rest (i + 1) with
      | some (t, p), some tail => some (t :: (kb ++ [0] ++ p ++ tail))
      | _, _ => none
end

/-- Encode a whole document: int32 total length (the length field covers
itself and the terminator), the element list, a closing NUL. -/
def encDoc (d : BDoc) : Option (List Nat) :=
  match encBody d with
  | some body =>
    if body.length + 5 < 2 ^ 31 then some (le32 (body.length + 5) ++ body ++ [0])
    else none
  | none => none

/-- `LabVIEWClient._send_dict`: the bytes written to the socket are exactly the
BSON encoding of the message (BSON's own length field is the frame header). -/
def send_dict (msg : BDoc) : Option (List Nat) := encDoc msg

/-! ## BSON decoding (model of `bson.decode_all`) -/

/-- Decode a BSON boolean payload byte. -/
def decBool : List Nat → Option (BVal × List Nat)
  | 0 :: bs1 => some (.bool false, bs1)
  | 1 :: bs1 => some (.bool true, bs1)
  | _ => none

mutual
def decVal : Nat → Nat → List Nat → Option (BVal × List Nat)
  | 0, _, _ => none
  | f + 1, t, bs =>
    if t = 2 then
      match dec32 bs with
      | some (len, bs1) =>
        if 1 ≤ len ∧ len ≤ (bs1.length : Int) then
          match bs1.drop (len.toNat - 1) with
          | 0 :: bs2 =>
            match utf8Str (bs1.take (len.toNat - 1)) with
            | some s => some (.str s, bs2)
            | none => none
          | _ => none
        else none
      | none => none
    else if t = 3 then
      match dec32 bs with
      | some (_, bs1) =>
        match decElems f bs1 with
        | some (d, bs2) => some (.doc d, bs2)
        | none => none
      | none => none
    else if t = 4 then
      match dec32 bs with
      | some (_, bs1) =>
        match decElems f bs1 with
        | some (d, bs2) => some (.arr (stripKeys d), bs2)
        | none => none
      | none => none
    else if t = 8 then decBool bs
    else if t = 10 then some (.null, bs)
    else if t = 16 then
      match dec32 bs with
      | some (n, bs1) => some (.int n, bs1)
      | none => none
    else if t = 18 then
      match dec64 bs with
      | some (n, bs1) => some (.int n, bs1)
      | none => none
    else none
def decElems : Nat → List Nat → Option (BDoc × List Nat)
  | 0, _ => none
  | _ + 1, [] => none
  | _ + 1, 0 :: rest => some (.nil, rest)
  | f + 1, (t + 1) :: bs =>
    match splitAtNul bs with
    | some (kb, bs1) =>
      match utf8Str kb with
      | some k =>
        match decVal f (t + 1) bs1 with
        | some (v, bs2) =>
          match decElems f bs2 with
          | some (d, bs3) => some (.cons k v d, bs3)
          | none => none
        | none => none
      | none => none
    | none => none
end

/-- Decode errors raised while receiving a frame: `structError` models
`struct.error` (short size read), `invalidBSON` models
`bson.errors.InvalidBSON`, `indexError` models indexing an empty result
list. -/
inductive WireErr where
  | structError
  | invalidBSON
  | indexError

/-- Model of `bson.decode_all`: repeatedly read an int32 object size, validate
it against the remaining byte count and the closing NUL, parse one document,
and advance by the declared size. -/
def decodeAllAux : Nat → List Nat → Except WireErr (List BDoc)
  | _, [] => .ok []
  | 0, _ :: _ => .error .invalidBSON
  | f + 1, b :: bs =>
    if (b :: bs).length ≤ 1 then .ok []
    else
      match dec32 (b :: bs) with
      | some (lenInt, _) =>
        if ((b :: bs).length : Int) < lenInt then .error .invalidBSON
        else if lenInt < 5 then .error .invalidBSON
        else if (b :: bs).getD (lenInt.toNat - 1) 1 ≠ 0 then .error .invalidBSON
        else
          match decElems (b :: bs).length ((b :: bs).drop 4) with
          | some (d, _) =>
            match decodeAllAux f ((b :: bs).drop lenInt.toNat) with
            | .ok ds => .ok (d :: ds)
            | .error e => .error e
          | none => .error .invalidBSON
      | none => .error .structError

/-- `bson.decode_all` on a byte list. -/
def decode_all (bs : List Nat) : Except WireErr (List BDoc) :=
  decodeAllAux (bs.length + 1) bs

/-! ## The socket and `_recv_dict` -/

/-- A TCP read end: the bytes the peer will deliver before closing, plus a
delivery schedule capping how many bytes each successive `recv` hands back
(modelling short reads).  `recv` yields the empty list exactly when `data` is
exhausted — the close signal — or when the schedule caps a read at zero. -/
structure TcpStream where
  data : List Nat
  sched : List Nat

/-- `socket.recv n`: up to `n` bytes, empty means the peer closed. -/
def recv (n : Nat) (s : TcpStream) : List Nat × TcpStream :=
  let k := min n (s.sched.headD n)
  (s.data.take k, ⟨s.data.drop k, s.sched.tail⟩)

/-- The accumulation loop of `_recv_dict`: while fewer than `target` bytes are
held, request the remainder; an empty read breaks out of the loop.  Fuel bounds
iterations; `recv_dict` passes one more than the bytes available, which is
always enough since every non-breaking read consumes at least one byte. -/
def recvLoop : Nat → Int → List Nat → TcpStream → List Nat × TcpStream
  | 0, _, packet, s => (packet, s)
  | f + 1, target, packet, s =>
    if (packet.length : Int) < target then
      let pr := recv (target - packet.length).toNat s
      if pr.1.isEmpty then (packet, pr.2)
      else recvLoop f target (packet ++ pr.1) pr.2
    else (packet, s)

/-- `LabVIEWClient._recv_dict`: read the 4-byte size, accumulate until the
declared size is reached or the peer closes, then `bson.decode_all(packet)[0]`.
The 4-byte size read models `struct.unpack` on the first `recv(4)`, which
requires exactly 4 bytes. -/
def recv_dict (s : TcpStream) : Except WireErr BDoc × TcpStream :=
  let pr := recv 4 s
  match pr.1 with
  | [b0, b1, b2, b3] =>
    let n := sInt32 (nat32 b0 b1 b2 b3)
    let lp := recvLoop (pr.2.data.length + 1) n pr.1 pr.2
    match decode_all lp.1 with
    | .error e => (.error e, lp.2)
    | .ok [] => (.error .indexError, lp.2)
    | .ok (d :: _) => (.ok d, lp.2)
  | _ => (.error .structError, pr.2)

/-! ## The RPC operations (`LabVIEWClient`)

The remote listener is modelled as a function from the sent document to the
received document; each operation sends its command document, receives the
response, and checks it for an error status. -/

/-- Errors escaping a client call: a Python `KeyError` on a missing mapping
key, or the module's `Error` (the structured remote error with code, source
and message). -/
inductive PyErr where
  | keyError (k : String)
  | lvError (code source message : BVal)

/-- The error dict `_check_for_error` builds from the response fields. -/
def errorDict (code st src : BVal) : BDoc :=
  .cons "code" code (.cons "status" st (.cons "source" src .nil))

/-- The describe_error command document carrying an error dict. -/
def describeMsg (code st src : BVal) : BDoc :=
  .cons "command" (.str "describe_error") (.cons "error" (.doc (errorDict code st src)) .nil)

/-- `LabVIEWClient.describe_error`: sends a describe_error command carrying the
error dict and returns the `msg` field of the response. -/
def describe_error (respond : BDoc → BDoc) (error : BDoc) : Except PyErr BVal :=
  let msg : BDoc := .cons "command" (.str "describe_error") (.cons "error" (.doc error) .nil)
  let ret := respond msg
  match pyGet ret "msg" with
  | some v => .ok v
  | none => .error (.keyError "msg")

/-- `LabVIEWClient._check_for_error`: no status key means success; a truthy
status raises the module's `Error` built from the code and source fields and a
describe_error round trip; a falsy status is success. -/
def check_for_error (respond : BDoc → BDoc) (ret : BDoc) : Except PyErr Unit :=
  match pyGet ret "RunVIState_Status" with
  | none => .ok ()
  | some st =>
    if truthy st then
      match pyGet ret "RunVIState_Code" with
      | none => .error (.keyError "RunVIState_Code")
      | some code =>
        match pyGet ret "RunVIState_Source" with
        | none => .error (.keyError "RunVIState_Source")
        | some src =>
          match describe_error respond (errorDict code st src) with
          | .ok m => .error (.lvError code src m)
          | .error e => .error e
    else .ok ()

/-- Send a command document, receive the response, check it, return it. -/
def sendAndCheck (respond : BDoc → BDoc) (msg : BDoc) : Except PyErr BDoc :=
  let ret := respond msg
  match check_for_error respond ret with
  | .ok _ => .ok ret
  | .error e => .error e

/-- The run_vi command document. -/
def runViMsg (vi_path run_options open_frontpanel control_values indicator_names : BVal) : BDoc :=
  .cons "command" (.str "run_vi")
    (.cons "vi_path" vi_path
      (.cons "run_options" run_options
        (.cons "open_frontpanel" open_frontpanel
          (.cons "control_values" control_values
            (.cons "indicator_names" indicator_names .nil)))))

/-- `LabVIEWClient.run_vi_synchronous`. -/
def run_vi_synchronous (respond : BDoc → BDoc)
    (vi_path run_options open_frontpanel control_values indicator_names : BVal) :
    Except PyErr BDoc :=
  sendAndCheck respond (runViMsg vi_path run_options open_frontpanel control_values indicator_names)

/-- The set_controls command document. -/
def setControlsMsg (project_path target_name vi_path control_values ignore_nonexistent_controls : BVal) : BDoc :=
  .cons "command" (.str "set_controls")
    (.cons "project_path" project_path
      (.cons "target_name" target_name
        (.cons "vi_path" vi_path
          (.cons "control_values" control_values
            (.cons "ignore_nonexistent_controls" ignore_nonexistent_controls .nil)))))

/-- `LabVIEWClient.set_controls`. -/
def set_controls (respond : BDoc → BDoc)
    (project_path target_name vi_path control_values ignore_nonexistent_controls : BVal) :
    Except PyErr BDoc :=
  sendAndCheck respond
    (setControlsMsg project_path target_name vi_path control_values ignore_nonexistent_controls)

/-- The get_indicators command document. -/
def getIndicatorsMsg (project_path target_name vi_path indicator_names : BVal) : BDoc :=
  .cons "command" (.str "get_indicators")
    (.cons "project_path" project_path
      (.cons "target_name" target_name
        (.cons "vi_path" vi_path
          (.cons "indicator_names" indicator_names .nil))))

/-- `LabVIEWClient.get_indicators`. -/
def get_indicators (respond : BDoc → BDoc)
    (project_path target_name vi_path indicator_names : BVal) : Except PyErr BDoc :=
  sendAndCheck respond (getIndicatorsMsg project_path target_name vi_path indicator_names)

/-- The error policy a client operation obeys, relating its result to the
received response `respond msg`: success with the unchanged response when the
status key is absent or falsy; the structured remote error built from the
code and source fields and the describe_error message when the status is
truthy (and those lookups succeed); and conversely a structured remote error
arises only from such a response. -/
def opPolicy (respond : BDoc → BDoc) (msg : BDoc) (result : Except PyErr BDoc) : Prop :=
  (pyGet (respond msg) "RunVIState_Status" = none → result = .ok (respond msg)) ∧
  (∀ st, pyGet (respond msg) "RunVIState_Status" = some st → truthy st = false →
    result = .ok (respond msg)) ∧
  (∀ st code src m, pyGet (respond msg) "RunVIState_Status" = some st → truthy st = true →
    pyGet (respond msg) "RunVIState_Code" = some code →
    pyGet (respond msg) "RunVIState_Source" = some src →
    pyGet (respond (describeMsg code st src)) "msg" = some m →
    result = .error (.lvError code src m)) ∧
  (∀ code src m, result = .error (.lvError code src m) →
    ∃ st, pyGet (respond msg) "RunVIState_Status" = some st ∧ truthy st = true ∧
      pyGet (respond msg) "RunVIState_Code" = some code ∧
      pyGet (respond msg) "RunVIState_Source" = some src ∧
      pyGet (respond (describeMsg code st src)) "msg" = some m)

/-- The missing-key behaviour of a client operation: a true status with the
code key absent fails with its `KeyError`; a true status with the code key
present but the source key absent fails with the source `KeyError`; and a
structured remote error is only ever built with all three fields present. -/
def keyPolicy (respond : BDoc → BDoc) (msg : BDoc) (result : Except PyErr BDoc) : Prop :=
  (pyGet (respond msg) "RunVIState_Status" = some (.bool true) →
    pyGet (respond msg) "RunVIState_Code" = none →
    result = .error (.keyError "RunVIState_Code")) ∧
  (∀ code, pyGet (respond msg) "RunVIState_Status" = some (.bool true) →
    pyGet (respond msg) "RunVIState_Code" = some code →
    pyGet (respond msg) "RunVIState_Source" = none →
    result = .error (.keyError "RunVIState_Source")) ∧
  (∀ code src m, result = .error (.lvError code src m) →
    (∃ st, pyGet (respond msg) "RunVIState_Status" = some st) ∧
    (∃ c, pyGet (respond msg) "RunVIState_Code" = some c) ∧
    (∃ s, pyGet (respond msg) "RunVIState_Source" = some s))

/-! ## Process lifecycle (`labview.py`)

`psutil` and `subprocess` are modelled by an environment: `exePath` maps a pid
to the executable path of the process bearing it (none when no such process
exists), `running` is `psutil.Process.is_running`, and `exits p t` says
whether the process exits within `t` seconds of being killed
(`psutil.Process.wait(t)` raises `TimeoutExpired` otherwise; `wait(None)`
blocks until the exit that SIGKILL guarantees). -/

structure ProcEnv where
  exePath : Nat → Option String
  running : Nat → Bool
  exits : Nat → Nat → Bool

/-- Python `str.lower`, modelled on the ASCII fragment character-wise. -/
def pyLowerChar (c : Char) : Char :=
  if 65 ≤ c.toNat ∧ c.toNat ≤ 90 then Char.ofNat (c.toNat + 32) else c

/-- Python `str.lower` on a whole string. -/
def pyLower (s : String) : String := String.mk (s.data.map pyLowerChar)

/-- `LabVIEWHelpers._get_process`: none when the tracked pid is none, when no
process bears the pid (`psutil.NoSuchProcess`), or when the executable path of
the process bearing it differs case-insensitively from the tracked one. -/
def get_process (env : ProcEnv) (pid : Option Nat) (executable : String) : Option Nat :=
  match pid with
  | none => none
  | some p =>
    match env.exePath p with
    | none => none
    | some e => if pyLower e = pyLower executable then some p else none

/-- `LabVIEWHelpers.process_is_running`. -/
def process_is_running (env : ProcEnv) (pid : Option Nat) (executable : String) : Bool :=
  match get_process env pid executable with
  | none => false
  | some p => env.running p

/-- Errors escaping the lifecycle methods: `psutil.TimeoutExpired` from
`Process.wait(timeout)`. -/
inductive PsErr where
  | timeoutExpired

/-- The environment after a process has been killed and has exited. -/
def removeProc (env : ProcEnv) (p : Nat) : ProcEnv :=
  ⟨fun q => if q = p then none else env.exePath q,
   fun q => if q = p then false else env.running q,
   env.exits⟩

/-- `LabVIEWHelpers.kill_process`: exit silently when no process is matched;
otherwise `proc.kill()` then `proc.wait(timeout)`, which raises
`TimeoutExpired` when a finite timeout elapses before the process exits. -/
def kill_process (env : ProcEnv) (pid : Option Nat) (executable : String)
    (timeout : Option Nat) : Except PsErr ProcEnv :=
  match get_process env pid executable with
  | none => .ok env
  | some p =>
    match timeout with
    | none => .ok (removeProc env p)
    | some t => if env.exits p t then .ok (removeProc env p) else .error .timeoutExpired

/-- `LabVIEW.kill`: delegate to `kill_process`, then clear the tracked pid.
When `kill_process` raises, the exception propagates before the assignment
`self._pid = None` runs, so the tracked pid is left unchanged and the caller
sees the error. -/
def lvKill (env : ProcEnv) (pid : Option Nat) (executable : String)
    (timeout : Option Nat) : Except PsErr (Option Nat × ProcEnv) :=
  match kill_process env pid executable timeout with
  | .ok env1 => .ok (none, env1)
  | .error e => .error e

/-- The handle returned by `LabVIEWClient.__init__` (address and port). -/
structure ClientHandle where
  address : String
  port : Nat
deriving DecidableEq

/-- Errors raised by `LabVIEW.client`. -/
inductive LvErr where
  | notStarted
deriving DecidableEq

/-- `LabVIEW.client`: `NotStartedError` when the tracked process is not
running; `NotStartedError` when the automation server was configured off;
otherwise a client bound to the host and configured port. -/
def lvClient (env : ProcEnv) (pid : Option Nat) (executable : String)
    (host : String) (serverStart : Bool) (serverPort : Nat) :
    Except LvErr ClientHandle :=
  if ¬ process_is_running env pid executable then .error .notStarted
  else if ¬ serverStart then .error .notStarted
  else .ok ⟨host, serverPort⟩

/-- The host facts `LabVIEW.start_with_args` consults: the
`psutil.process_iter` snapshot as (pid, name) pairs, and the pid
`subprocess.Popen` hands back for the process it spawns. -/
structure SpawnEnv where
  procs : List (Nat × String)
  newPid : Nat

/-- `LabVIEW.start_with_args`, given the tracked pid before the call.  Returns
the tracked pid after the call and how many processes the call spawned.  The
source iterates over all processes, overwriting `self._pid` with the pid of
every process named LabVIEW.exe; afterwards, when `self._pid` is still None it
spawns and records the new pid, and otherwise it spawns anyway and discards
the new pid. -/
def start_with_args (env : SpawnEnv) (pid0 : Option Nat) : Option Nat × Nat :=
  let pidLoop := env.procs.foldl
    (fun acc pr => if pr.2 = "LabVIEW.exe" then some pr.1 else acc) pid0
  match pidLoop with
  | none => (some env.newPid, 1)
  | some p => (some p, 1)

/-- Outcome of the readiness wait `LabVIEW.wait_until_server_loaded`:
a successful probe on attempt `i`, a `TimeoutError` raised after the failed
attempt `i`, or fuel exhaustion (the loop still spinning). -/
inductive WaitResult where
  | success (i : Nat)
  | timeoutError (i : Nat)
  | spinning (i : Nat)
deriving DecidableEq

/-- `LabVIEW.wait_until_server_loaded`: attempt `i` probes the server by
opening and closing a client (`probe i` says whether that succeeds); on
failure the elapsed time `clock i` (the value of `time.time() - start_time`
at the check) is compared with the timeout: strictly greater raises
`TimeoutError`, otherwise the loop retries.  Fuel bounds the iterations of
the unbounded source loop. -/
def waitLoop (probe : Nat → Bool) (clock : Nat → Nat) (timeout_s : Nat) :
    Nat → Nat → WaitResult
  | 0, i => .spinning i
  | f + 1, i =>
    if probe i then .success i
    else if timeout_s < clock i then .timeoutError i
    else waitLoop probe clock timeout_s f (i + 1)

/-! ## Concrete inputs for witnesses and counterexamples -/

/-- A response document reporting failure with an integer (not boolean) status
flag, as Python truth-testing accepts. -/
def retTruthyInt : BDoc :=
  .cons "RunVIState_Status" (.int 1)
    (.cons "RunVIState_Code" (.int 7)
      (.cons "RunVIState_Source" (.str "src") .nil))

/-- A response document reporting failure with a boolean status flag. -/
def retBoolTrue : BDoc :=
  .cons "RunVIState_Status" (.bool true)
    (.cons "RunVIState_Code" (.int 42)
      (.cons "RunVIState_Source" (.str "X") .nil))

/-- A response document with a truthy status but no code field. -/
def retNoCode : BDoc :=
  .cons "RunVIState_Status" (.bool true)
    (.cons "RunVIState_Source" (.str "X") .nil)

/-- A describe_error response document. -/
def retMsg : BDoc := .cons "msg" (.str "boom") .nil

/-- A listener answering run_vi with `retTruthyInt` and describe_error with
`retMsg`. -/
def respondTruthyInt : BDoc → BDoc :=
  fun q =>
    match pyGet q "command" with
    | some (.str "describe_error") => retMsg
    | _ => retTruthyInt

/-- A listener answering run_vi with `retBoolTrue` and describe_error with
`retMsg`. -/
def respondBoolTrue : BDoc → BDoc :=
  fun q =>
    match pyGet q "command" with
    | some (.str "describe_error") => retMsg
    | _ => retBoolTrue

/-- A listener answering run_vi with `retNoCode` and describe_error with
`retMsg`. -/
def respondNoCode : BDoc → BDoc :=
  fun q =>
    match pyGet q "command" with
    | some (.str "describe_error") => retMsg
    | _ => retNoCode

/-- A host on which pid 42 bears the target executable, is running, and does
not exit within any finite kill timeout. -/
def envHung : ProcEnv :=
  ⟨fun p => if p = 42 then some "C:\\lv\\LabVIEW.exe" else none,
   fun p => p = 42,
   fun _ _ => false⟩

/-- A host on which pid 42 bears the target executable, is running, and exits
promptly when killed. -/
def envLive : ProcEnv :=
  ⟨fun p => if p = 42 then some "C:\\lv\\LabVIEW.exe" else none,
   fun p => p = 42,
   fun _ _ => true⟩

/-- A host on which pid 42 has been recycled by a process with a different
executable path. -/
def envRecycled : ProcEnv :=
  ⟨fun p => if p = 42 then some "C:\\other\\Notepad.exe" else none,
   fun p => p = 42,
   fun _ _ => true⟩

/-- A process_iter snapshot holding one process named LabVIEW.exe with pid 42;
a spawn would hand back pid 99. -/
def spawnEnvMatch : SpawnEnv := ⟨[(42, "LabVIEW.exe")], 99⟩

/-- A process_iter snapshot with no process named LabVIEW.exe. -/
def spawnEnvNoMatch : SpawnEnv := ⟨[(7, "Notepad.exe")], 99⟩

/-- Probes for the readiness wait: attempt 1 succeeds, attempt 0 fails. -/
def cProbe : Nat → Bool := fun i => i = 1

/-- Probes that always fail. -/
def cProbeFail : Nat → Bool := fun _ => false

/-- A clock under which attempt 0 is checked at 3 s and attempt 1 at 10 s. -/
def cClock : Nat → Nat := fun i => if i = 0 then 3 else 10

/-- A document exercising every encoded type, for the round-trip witness. -/
def docW : BDoc :=
  .cons "command" (.str "run_vi")
    (.cons "run_options" (.int 0)
      (.cons "big" (.int 1099511627776)
        (.cons "neg" (.int (-5))
          (.cons "open_frontpanel" (.bool false)
            (.cons "nothing" .null
              (.cons "control_values" (.doc (.cons "Volts" (.int 12) .nil))
                (.cons "indicator_names" (.arr (.cons (.str "Out") (.cons (.int 3) .nil)))
                  .nil)))))))

/-- The encoded bytes of `docW` (empty when encoding fails; the round-trip
witness proves it does not). -/
def bytesW : List Nat := (encDoc docW).getD []

/-- A truncated incoming stream: the size field declares 32 bytes but the peer
closes after 10. -/
def truncStream : TcpStream := ⟨[32, 0, 0, 0, 8, 65, 0, 1, 16, 66], []⟩

/-! ## Arithmetic facts about the byte codecs -/

/-- Reassembling the four little-endian bytes of a 32-bit value recovers it. -/
theorem nat32_le32 (n : Nat) (h : n < 4294967296) :
    nat32 (n % 256) (n / 256 % 256) (n / 65536 % 256) (n / 16777216 % 256) = n := by
  unfold nat32
  omega

/-- A value below 2^31 reads back as itself under the signed interpretation. -/
theorem sInt32_ofNat (n : Nat) (h : n < 2 ^ 31) : sInt32 n = (n : Int) := by
  unfold sInt32
  split
  · rfl
  · omega

/-- Two's-complement round trip for a 32-bit signed integer. -/
theorem sInt32_toUn32 (n : Int) (h1 : -2 ^ 31 ≤ n) (h2 : n < 2 ^ 31) :
    sInt32 (toUn32 n) = n := by
  unfold sInt32 toUn32
  split <;> omega

/-- Two's-complement round trip for a 64-bit signed integer. -/
theorem sInt64_toUn64 (n : Int) (h1 : -2 ^ 63 ≤ n) (h2 : n < 2 ^ 63) :
    sInt64 (toUn64 n) = n := by
  unfold sInt64 toUn64
  split <;> omega

/-- Reading an int32 off its little-endian encoding followed by anything. -/
theorem dec32_le32 (n : Nat) (h : n < 4294967296) (rest : List Nat) :
    dec32 (le32 n ++ rest) = some (sInt32 n, rest) := by
  simp [le32, dec32, nat32_le32 n h]

/-- Reading an int64 off its little-endian encoding followed by anything. -/
theorem dec64_le64 (n : Nat) (h : n < 18446744073709551616) (rest : List Nat) :
    dec64 (le64 n ++ rest) = some (sInt64 n, rest) := by
  have : nat64 (n % 256) (n / 256 % 256) (n / 65536 % 256) (n / 16777216 % 256)
      (n / 4294967296 % 256) (n / 1099511627776 % 256) (n / 281474976710656 % 256)
      (n / 72057594037927936 % 256) = n := by
    unfold nat64
    omega
  simp [le64, dec64, this]

/-- The four-byte size encoding has length 4. -/
theorem le32_length (n : Nat) : (le32 n).length = 4 := rfl

/-! ## UTF-8 round trip -/

/-- Every character's code point is a valid Unicode scalar value. -/
theorem char_toNat_lt (c : Char) : c.toNat < 1114112 := by
  show c.val.toNat < 1114112
  rcases c.valid with h | h
  · omega
  · omega

/-- Decoding one UTF-8-encoded code point recovers it and the trailing bytes. -/
theorem utf8DecChar_utf8Char (c : Nat) (hc : c < 1114112) (rest : List Nat) :
    utf8DecChar (utf8Char c ++ rest) = some (c, rest) := by
  unfold utf8Char
  by_cases h1 : c < 128
  · simp [h1, utf8DecChar]
  · by_cases h2 : c < 2048
    · have e1 : ¬ (192 + c / 64 < 128) := by omega
      have e2 : ¬ (192 + c / 64 < 192) := by omega
      have e3 : 192 + c / 64 < 224 := by omega
      simp only [h1, h2, if_true, if_false, List.cons_append, List.nil_append, utf8DecChar]
      simp only [e1, e2, e3, if_true, if_false]
      have hcond : (128 ≤ 128 + c % 64 ∧ 128 + c % 64 < 192) := by omega
      simp only [hcond, and_self, and_true, if_true, Option.some.injEq, Prod.mk.injEq]
      omega
    · by_cases h3 : c < 65536
      · have e1 : ¬ (224 + c / 4096 < 128) := by omega
        have e2 : ¬ (224 + c / 4096 < 192) := by omega
        have e3 : ¬ (224 + c / 4096 < 224) := by omega
        have e4 : 224 + c / 4096 < 240 := by omega
        simp only [h1, h2, h3, if_true, if_false, List.cons_append, List.nil_append, utf8DecChar]
        simp only [e1, e2, e3, e4, if_true, if_false]
        have hcond : (128 ≤ 128 + c / 64 % 64 ∧ 128 + c / 64 % 64 < 192) ∧
            (128 ≤ 128 + c % 64 ∧ 128 + c % 64 < 192) := by omega
        simp only [hcond, and_self, and_true, if_true, Option.some.injEq, Prod.mk.injEq]
        omega
      · have e1 : ¬ (240 + c / 262144 < 128) := by omega
        have e2 : ¬ (240 + c / 262144 < 192) := by omega
        have e3 : ¬ (240 + c / 262144 < 224) := by omega
        have e4 : ¬ (240 + c / 262144 < 240) := by omega
        have e5 : 240 + c / 262144 < 248 := by omega
        simp only [h1, h2, h3, if_true, if_false, List.cons_append, List.nil_append, utf8DecChar]
        simp only [e1, e2, e3, e4, e5, if_true, if_false]
        have hcond : (128 ≤ 128 + c / 4096 % 64 ∧ 128 + c / 4096 % 64 < 192) ∧
            (128 ≤ 128 + c / 64 % 64 ∧ 128 + c / 64 % 64 < 192) ∧
            (128 ≤ 128 + c % 64 ∧ 128 + c % 64 < 192) := by omega
        simp only [hcond, and_self, and_true, if_true, Option.some.injEq, Prod.mk.injEq]
        omega

/-- A code point encodes to at least one byte. -/
theorem utf8Char_ne_nil (c : Nat) : utf8Char c ≠ [] := by
  unfold utf8Char
  split
  · simp
  · split
    · simp
    · split <;> simp

/-- Character count is bounded by byte count. -/
theorem length_le_utf8Bytes : ∀ cs : List Char, cs.length ≤ (utf8Bytes cs).length
  | [] => Nat.le_refl 0
  | c :: cs => by
    have h1 := length_le_utf8Bytes cs
    have h2 : 1 ≤ (utf8Char c.toNat).length := by
      cases h : utf8Char c.toNat with
      | nil => exact absurd h (utf8Char_ne_nil c.toNat)
      | cons _ _ => simp
    simp only [utf8Bytes, List.length_cons, List.length_append]
    omega

/-- Decoding the UTF-8 bytes of a character list with enough fuel recovers
the characters. -/
theorem utf8DecList_utf8Bytes : ∀ (cs : List Char) (f : Nat), cs.length ≤ f →
    utf8DecList f (utf8Bytes cs) = some cs
  | [], f, _ => by cases f <;> rfl
  | c :: cs, f + 1, hf => by
    obtain ⟨b, bs, hb⟩ : ∃ b bs, utf8Char c.toNat = b :: bs := by
      cases h : utf8Char c.toNat with
      | nil => exact absurd h (utf8Char_ne_nil c.toNat)
      | cons x xs => exact ⟨x, xs, rfl⟩
    have hchar : utf8DecChar (utf8Char c.toNat ++ utf8Bytes cs) = some (c.toNat, utf8Bytes cs) :=
      utf8DecChar_utf8Char c.toNat (char_toNat_lt c) (utf8Bytes cs)
    have hrec : utf8DecList f (utf8Bytes cs) = some cs :=
      utf8DecList_utf8Bytes cs f (by simpa using hf)
    show utf8DecList (f + 1) (utf8Bytes (c :: cs)) = some (c :: cs)
    rw [show utf8Bytes (c :: cs) = utf8Char c.toNat ++ utf8Bytes cs from rfl, hb]
    rw [hb] at hchar
    simp only [List.cons_append] at hchar ⊢
    rw [utf8DecList, hchar]
    simp [hrec, Char.ofNat_toNat]

/-- Decoding the UTF-8 bytes of a string recovers the string. -/
theorem utf8Str_utf8Bytes (s : String) : utf8Str (utf8Bytes s.data) = some s := by
  unfold utf8Str
  rw [utf8DecList_utf8Bytes s.data (utf8Bytes s.data).length (length_le_utf8Bytes s.data)]

/-- Splitting at the NUL terminator recovers a NUL-free chunk and the tail. -/
theorem splitAtNul_append (l r : List Nat) (h : 0 ∉ l) :
    splitAtNul (l ++ 0 :: r) = some (l, r) := by
  induction l with
  | nil => rfl
  | cons a as ih =>
    have ha : a ≠ 0 := fun e => h (by simp [e])
    have ih' := ih (fun hx => h (by simp [hx]))
    cases a with
    | zero => exact absurd rfl ha
    | succ n => simp only [List.cons_append, splitAtNul, List.append_eq, ih']

/-! ## Encoder facts and the BSON round trip -/

/-- Every encoded value's type byte is positive (so it is never mistaken for
the document terminator). -/
theorem encVal_t_pos (v : BVal) (t : Nat) (p : List Nat) (henc : encVal v = some (t, p)) :
    1 ≤ t := by
  cases v with
  | str s =>
    rw [encVal] at henc
    split at henc
    · simp only [Option.some.injEq, Prod.mk.injEq] at henc
      omega
    · exact absurd henc (by simp)
  | int n =>
    rw [encVal] at henc
    split at henc
    · simp only [Option.some.injEq, Prod.mk.injEq] at henc
      omega
    · split at henc
      · simp only [Option.some.injEq, Prod.mk.injEq] at henc
        omega
      · exact absurd henc (by simp)
  | bool b =>
    rw [encVal] at henc
    simp only [Option.some.injEq, Prod.mk.injEq] at henc
    omega
  | null =>
    rw [encVal] at henc
    simp only [Option.some.injEq, Prod.mk.injEq] at henc
    omega
  | doc d =>
    rw [encVal] at henc
    split at henc
    · split at henc
      · simp only [Option.some.injEq, Prod.mk.injEq] at henc
        omega
      · exact absurd henc (by simp)
    · exact absurd henc (by simp)
  | arr l =>
    rw [encVal] at henc
    split at henc
    · split at henc
      · simp only [Option.some.injEq, Prod.mk.injEq] at henc
        omega
      · exact absurd henc (by simp)
    · exact absurd henc (by simp)

/-- Dropping the index keys of an array's serialized document recovers the
array. -/
theorem stripKeys_idxDoc : ∀ (l : BList) (i : Nat), stripKeys (idxDoc l i) = l
  | .nil, _ => rfl
  | .cons v r, i => by rw [idxDoc, stripKeys, stripKeys_idxDoc r (i + 1)]

/-- Decoding an encoded string payload. -/
theorem decVal_str_enc (B rest : List Nat) (s : String) (f : Nat)
    (hB : utf8Str B = some s) (hlen : B.length + 1 < 2 ^ 31) :
    decVal (f + 1) 2 ((le32 (B.length + 1) ++ B ++ [0]) ++ rest) = some (.str s, rest) := by
  have h1 : (le32 (B.length + 1) ++ B ++ [0]) ++ rest = le32 (B.length + 1) ++ (B ++ 0 :: rest) := by
    simp
  rw [decVal, if_pos rfl, h1, dec32_le32 (B.length + 1) (by omega),
    sInt32_ofNat (B.length + 1) hlen]
  have hcond : (1 : Int) ≤ ((B.length + 1 : Nat) : Int) ∧
      ((B.length + 1 : Nat) : Int) ≤ (((B ++ 0 :: rest).length : Nat) : Int) := by
    simp
  have htn : ((B.length + 1 : Nat) : Int).toNat - 1 = B.length := by omega
  simp only [hcond, and_self, if_pos, htn, List.drop_left, List.take_left, hB]

/-- Decoding an encoded int32 payload. -/
theorem decVal_i32_enc (n : Int) (f : Nat) (rest : List Nat)
    (h1 : -2 ^ 31 ≤ n) (h2 : n < 2 ^ 31) :
    decVal (f + 1) 16 (le32 (toUn32 n) ++ rest) = some (.int n, rest) := by
  rw [decVal, if_neg (by omega), if_neg (by omega), if_neg (by omega), if_neg (by omega),
    if_neg (by omega), if_pos rfl]
  rw [dec32_le32 (toUn32 n) (by unfold toUn32; omega), sInt32_toUn32 n h1 h2]

/-- Decoding an encoded int64 payload. -/
theorem decVal_i64_enc (n : Int) (f : Nat) (rest : List Nat)
    (h1 : -2 ^ 63 ≤ n) (h2 : n < 2 ^ 63) :
    decVal (f + 1) 18 (le64 (toUn64 n) ++ rest) = some (.int n, rest) := by
  rw [decVal, if_neg (by omega), if_neg (by omega), if_neg (by omega), if_neg (by omega),
    if_neg (by omega), if_neg (by omega), if_pos rfl]
  rw [dec64_le64 (toUn64 n) (by unfold toUn64; omega), sInt64_toUn64 n h1 h2]

/-- Decoding an encoded boolean payload. -/
theorem decVal_bool_enc (b : Bool) (f : Nat) (rest : List Nat) :
    decVal (f + 1) 8 ([if b then 1 else 0] ++ rest) = some (.bool b, rest) := by
  cases b <;> rfl

/-- Decoding an encoded null payload. -/
theorem decVal_null_enc (f : Nat) (rest : List Nat) :
    decVal (f + 1) 10 ([] ++ rest) = some (.null, rest) := rfl

mutual
/-- Round trip: decoding an encoded value (with its type byte, enough fuel and
any trailing bytes) recovers the value and the trailing bytes. -/
theorem decVal_encVal : ∀ (v : BVal) (t : Nat) (p : List Nat) (f : Nat) (rest : List Nat),
    encVal v = some (t, p) → p.length < f → decVal f t (p ++ rest) = some (v, rest)
  | _, _, p, 0, _ => fun _ hf => absurd hf (by omega)
  | .str s, t, p, f + 1, rest => fun henc hf => by
    rw [encVal] at henc
    split at henc
    case isTrue hlen =>
      simp only [Option.some.injEq, Prod.mk.injEq] at henc
      obtain ⟨ht, hp⟩ := henc
      subst ht
      subst hp
      exact decVal_str_enc (utf8Bytes s.data) rest s f (utf8Str_utf8Bytes s) hlen
    case isFalse => exact absurd henc (by simp)
  | .int n, t, p, f + 1, rest => fun henc hf => by
    rw [encVal] at henc
    split at henc
    case isTrue hr =>
      simp only [Option.some.injEq, Prod.mk.injEq] at henc
      obtain ⟨ht, hp⟩ := henc
      subst ht
      subst hp
      exact decVal_i32_enc n f rest hr.1 hr.2
    case isFalse =>
      split at henc
      case isTrue hr =>
        simp only [Option.some.injEq, Prod.mk.injEq] at henc
        obtain ⟨ht, hp⟩ := henc
        subst ht
        subst hp
        exact decVal_i64_enc n f rest hr.1 hr.2
      case isFalse => exact absurd henc (by simp)
  | .bool b, t, p, f + 1, rest => fun henc hf => by
    rw [encVal] at henc
    simp only [Option.some.injEq, Prod.mk.injEq] at henc
    obtain ⟨ht, hp⟩ := henc
    subst ht
    subst hp
    exact decVal_bool_enc b f rest
  | .null, t, p, f + 1, rest => fun henc hf => by
    rw [encVal] at henc
    simp only [Option.some.injEq, Prod.mk.injEq] at henc
    obtain ⟨ht, hp⟩ := henc
    subst ht
    subst hp
    exact decVal_null_enc f rest
  | .doc d, t, p, f + 1, rest => fun henc hf => by
    rw [encVal] at henc
    split at henc
    case h_1 body heq =>
      split at henc
      case isTrue hlen =>
        simp only [Option.some.injEq, Prod.mk.injEq] at henc
        obtain ⟨ht, hp⟩ := henc
        subst ht
        subst hp
        have hplen : (le32 (body.length + 5) ++ body ++ [0]).length = body.length + 5 := by
          simp [le32]
        have hrec := decElems_encBody d body f rest heq (by omega)
        have hassoc : (le32 (body.length + 5) ++ body ++ [0]) ++ rest
            = le32 (body.length + 5) ++ (body ++ 0 :: rest) := by simp
        rw [decVal, if_neg (by omega), if_pos rfl, hassoc,
          dec32_le32 (body.length + 5) (by omega)]
        simp only [hrec]
      case isFalse => exact absurd henc (by simp)
    case h_2 => exact absurd henc (by simp)
  | .arr l, t, p, f + 1, rest => fun henc hf => by
    rw [encVal] at henc
    split at henc
    case h_1 body heq =>
      split at henc
      case isTrue hlen =>
        simp only [Option.some.injEq, Prod.mk.injEq] at henc
        obtain ⟨ht, hp⟩ := henc
        subst ht
        subst hp
        have hplen : (le32 (body.length + 5) ++ body ++ [0]).length = body.length + 5 := by
          simp [le32]
        have hrec := decElems_encIdx l 0 body f rest heq (by omega)
        have hassoc : (le32 (body.length + 5) ++ body ++ [0]) ++ rest
            = le32 (body.length + 5) ++ (body ++ 0 :: rest) := by simp
        rw [decVal, if_neg (by omega), if_neg (by omega), if_pos rfl, hassoc,
          dec32_le32 (body.length + 5) (by omega)]
        simp only [hrec, stripKeys_idxDoc]
      case isFalse => exact absurd henc (by simp)
    case h_2 => exact absurd henc (by simp)

/-- Round trip: decoding an encoded element list followed by the document
terminator recovers the document and the trailing bytes. -/
theorem decElems_encBody : ∀ (d : BDoc) (body : List Nat) (f : Nat) (rest : List Nat),
    encBody d = some body → body.length + 1 < f →
    decElems f (body ++ 0 :: rest) = some (d, rest)
  | _, body, 0, _ => fun _ hf => absurd hf (by omega)
  | .nil, body, f + 1, rest => fun henc hf => by
    rw [encBody] at henc
    simp only [Option.some.injEq] at henc
    subst henc
    rfl
  | .cons k v r, body, f + 1, rest => fun henc hf => by
    rw [encBody] at henc
    split at henc
    case isTrue => exact absurd henc (by simp)
    case isFalse hk =>
      split at henc
      case h_1 t1 p1 tail heq1 heq2 =>
        simp only [Option.some.injEq] at henc
        subst henc
        obtain ⟨t2, rfl⟩ : ∃ u, t1 = u + 1 :=
          ⟨t1 - 1, by have := encVal_t_pos v t1 p1 heq1; omega⟩
        simp only [List.length_cons, List.length_append, List.length_singleton] at hf
        have hv := decVal_encVal v (t2 + 1) p1 f (tail ++ 0 :: rest) heq1 (by omega)
        have hr2 := decElems_encBody r tail f rest heq2 (by omega)
        have hsh : (utf8Bytes k.data ++ [0] ++ p1 ++ tail) ++ 0 :: rest
            = utf8Bytes k.data ++ 0 :: (p1 ++ (tail ++ 0 :: rest)) := by simp
        rw [List.cons_append, hsh, decElems,
          splitAtNul_append (utf8Bytes k.data) (p1 ++ (tail ++ 0 :: rest)) hk]
        simp only [utf8Str_utf8Bytes, hv, hr2]
      case h_2 => exact absurd henc (by simp)

/-- Round trip: decoding the element list of a serialized array (values keyed
by decimal indices) recovers the indexed document. -/
theorem decElems_encIdx : ∀ (l : BList) (i : Nat) (body : List Nat) (f : Nat) (rest : List Nat),
    encIdx l i = some body → body.length + 1 < f →
    decElems f (body ++ 0 :: rest) = some (idxDoc l i, rest)
  | _, _, body, 0, _ => fun _ hf => absurd hf (by omega)
  | .nil, i, body, f + 1, rest => fun henc hf => by
    rw [encIdx] at henc
    simp only [Option.some.injEq] at henc
    subst henc
    rfl
  | .cons v r, i, body, f + 1, rest => fun henc hf => by
    rw [encIdx] at henc
    split at henc
    case isTrue => exact absurd henc (by simp)
    case isFalse hk =>
      split at henc
      case h_1 t1 p1 tail heq1 heq2 =>
        simp only [Option.some.injEq] at henc
        subst henc
        obtain ⟨t2, rfl⟩ : ∃ u, t1 = u + 1 :=
          ⟨t1 - 1, by have := encVal_t_pos v t1 p1 heq1; omega⟩
        simp only [List.length_cons, List.length_append, List.length_singleton] at hf
        have hv := decVal_encVal v (t2 + 1) p1 f (tail ++ 0 :: rest) heq1 (by omega)
        have hr2 := decElems_encIdx r (i + 1) tail f rest heq2 (by omega)
        have hsh : (utf8Bytes (Nat.repr i).data ++ [0] ++ p1 ++ tail) ++ 0 :: rest
            = utf8Bytes (Nat.repr i).data ++ 0 :: (p1 ++ (tail ++ 0 :: rest)) := by simp
        rw [List.cons_append, hsh, decElems,
          splitAtNul_append (utf8Bytes (Nat.repr i).data) (p1 ++ (tail ++ 0 :: rest)) hk,
          idxDoc]
        simp only [utf8Str_utf8Bytes, hv, hr2]
      case h_2 => exact absurd henc (by simp)
end

/-- Indexing an appended list at the boundary reads the second part's head. -/
theorem getD_append_len (xs ys : List Nat) (dflt : Nat) :
    (xs ++ ys).getD xs.length dflt = ys.getD 0 dflt := by
  induction xs with
  | nil => rfl
  | cons a as ih => simpa using ih


/-- One well-formed step of `decode_all`: when the leading size field matches
the frame exactly, the document's element list parses, and the closing byte
is NUL, the whole frame decodes to that single document. -/
theorem decodeAllAux_ok_single (c0 c1 c2 c3 : Nat) (tail : List Nat) (f : Nat) (d : BDoc)
    (htail : 1 ≤ tail.length)
    (hL : sInt32 (nat32 c0 c1 c2 c3) = ((4 + tail.length : Nat) : Int))
    (hgetD : (c0 :: c1 :: c2 :: c3 :: tail).getD (3 + tail.length) 1 = 0)
    (helems : decElems (4 + tail.length) tail = some (d, [])) :
    decodeAllAux (f + 1) (c0 :: c1 :: c2 :: c3 :: tail) = .ok [d] := by
  rw [decodeAllAux, if_neg (by simp only [List.length_cons]; omega)]
  rw [show dec32 (c0 :: c1 :: c2 :: c3 :: tail)
      = some (sInt32 (nat32 c0 c1 c2 c3), tail) from rfl]
  have hlen : (c0 :: c1 :: c2 :: c3 :: tail).length = 4 + tail.length := by
    simp only [List.length_cons]
    omega
  have hc2 : (((4 + tail.length : Nat) : Int) < 5) = False :=
    eq_false (by push_cast; omega)

  have hidx : 4 + tail.length - 1 = 3 + tail.length := by omega
  have hdrop : (c0 :: c1 :: c2 :: c3 :: tail).drop 4 = tail := rfl
  have htn2 : (((4 + tail.length : Nat) : Int)).toNat = 4 + tail.length := by omega
  have hdropAll : (c0 :: c1 :: c2 :: c3 :: tail).drop (4 + tail.length) = [] := by
    rw [← hlen]
    exact List.drop_length _
  simp only [hL, hlen, lt_self_iff_false, if_false, hc2, htn2, hidx, hgetD, ne_eq,
    eq_self_iff_true, not_true_eq_false, hdrop, helems, hdropAll, decodeAllAux]

/-- One truncated step of `decode_all`: when the declared size exceeds the
bytes available, decoding fails at the size check. -/
theorem decodeAllAux_truncated (c0 c1 c2 c3 : Nat) (tail : List Nat) (f : Nat)
    (hN : ((4 + tail.length : Nat) : Int) < sInt32 (nat32 c0 c1 c2 c3)) :
    decodeAllAux (f + 1) (c0 :: c1 :: c2 :: c3 :: tail) = .error .invalidBSON := by
  rw [decodeAllAux, if_neg (by simp only [List.length_cons]; omega)]
  rw [show dec32 (c0 :: c1 :: c2 :: c3 :: tail)
      = some (sInt32 (nat32 c0 c1 c2 c3), tail) from rfl]
  have hlen : (c0 :: c1 :: c2 :: c3 :: tail).length = 4 + tail.length := by
    simp only [List.length_cons]
    omega
  have hcond : ((((c0 :: c1 :: c2 :: c3 :: tail).length : Nat) : Int)
      < sInt32 (nat32 c0 c1 c2 c3)) = True := by
    rw [hlen]
    exact eq_true hN
  simp only [hcond, if_true]

/-- `bson.decode_all` on the encoding of one document yields exactly that
document. -/
theorem decode_all_encDoc (d : BDoc) (bs : List Nat) (h : encDoc d = some bs) :
    decode_all bs = .ok [d] := by
  rw [encDoc] at h
  split at h
  case h_1 body heq =>
    split at h
    case isTrue hlen =>
      simp only [Option.some.injEq] at h
      subst h
      have hshape : le32 (body.length + 5) ++ body ++ [0]
          = (body.length + 5) % 256 :: (body.length + 5) / 256 % 256 ::
            (body.length + 5) / 65536 % 256 :: (body.length + 5) / 16777216 % 256 ::
            (body ++ [0]) := by
        simp [le32]
      have hblen : (le32 (body.length + 5) ++ body ++ [0]).length = body.length + 5 := by
        simp [le32]
      rw [decode_all, hblen, hshape]
      rw [show body.length + 5 + 1 = (body.length + 5) + 1 from rfl]
      apply decodeAllAux_ok_single
      · simp
      · rw [show nat32 ((body.length + 5) % 256) ((body.length + 5) / 256 % 256)
            ((body.length + 5) / 65536 % 256) ((body.length + 5) / 16777216 % 256)
            = body.length + 5 from nat32_le32 (body.length + 5) (by omega)]
        rw [sInt32_ofNat (body.length + 5) hlen]
        simp only [List.length_append, List.length_singleton]
        push_cast
        ring
      · have hx : (body.length + 5) % 256 :: (body.length + 5) / 256 % 256 ::
            (body.length + 5) / 65536 % 256 :: (body.length + 5) / 16777216 % 256 ::
            (body ++ [0]) = ((body.length + 5) % 256 :: (body.length + 5) / 256 % 256 ::
            (body.length + 5) / 65536 % 256 :: (body.length + 5) / 16777216 % 256 ::
            body) ++ [0] := by simp
        have hy : 3 + (body ++ [0]).length = ((body.length + 5) % 256 ::
            (body.length + 5) / 256 % 256 :: (body.length + 5) / 65536 % 256 ::
            (body.length + 5) / 16777216 % 256 :: body).length := by
          simp
          omega
        rw [hx, hy, getD_append_len]
        rfl
      · have hz : body ++ [0] = body ++ 0 :: [] := rfl
        have hw : 4 + (body ++ [0]).length = body.length + 5 := by
          simp only [List.length_append, List.length_singleton]
          omega
        rw [hz, hw]
        exact decElems_encBody d body (body.length + 5) [] heq (by omega)
    case isFalse => exact absurd h (by simp)
  case h_2 => exact absurd h (by simp)

/-- The accumulation loop only ever extends the packet with bytes drawn from
the stream: whatever it returns is the starting packet plus at most the bytes
the peer had left. -/
theorem recvLoop_extends : ∀ (f : Nat) (target : Int) (packet : List Nat) (s : TcpStream),
    ∃ q, (recvLoop f target packet s).1 = packet ++ q ∧ q.length ≤ s.data.length
  | 0, _, packet, s => ⟨[], by simp [recvLoop]⟩
  | f + 1, target, packet, s => by
    rw [recvLoop]
    dsimp only
    split
    · split
      · exact ⟨[], by simp⟩
      · obtain ⟨q, hq, hlen⟩ := recvLoop_extends f target
          (packet ++ (recv (target - (packet.length : Int)).toNat s).1)
          (recv (target - (packet.length : Int)).toNat s).2
        refine ⟨(recv (target - (packet.length : Int)).toNat s).1 ++ q, ?_, ?_⟩
        · rw [hq, List.append_assoc]
        · have h2 : (recv (target - (packet.length : Int)).toNat s).2.data.length
              = s.data.length
                - min (target - (packet.length : Int)).toNat
                    (s.sched.headD (target - (packet.length : Int)).toNat) := by
            simp [recv]
          have h3 : (recv (target - (packet.length : Int)).toNat s).1.length
              = min (min (target - (packet.length : Int)).toNat
                  (s.sched.headD (target - (packet.length : Int)).toNat)) s.data.length := by
            simp [recv, List.length_take]
          rw [h2] at hlen
          simp only [List.length_append]
          omega
    · exact ⟨[], by simp⟩

/-- C2: a stream whose 4-byte length field declares more bytes than the peer
will ever deliver makes `_recv_dict` fail with the protocol error
(`bson.errors.InvalidBSON`); the partial packet is never decoded into a
document.  The hypothesis `hs` says the first `recv(4)` is answered with the
full 4-byte size field; `hN` says the declared size exceeds everything the
peer has (size field plus `body`), i.e. the stream closes before the declared
length is reached. -/
theorem recv_dict_truncated (b0 b1 b2 b3 : Nat) (body sched : List Nat)
    (hs : 4 ≤ sched.headD 4)
    (hN : ((4 + body.length : Nat) : Int) < sInt32 (nat32 b0 b1 b2 b3)) :
    (recv_dict ⟨b0 :: b1 :: b2 :: b3 :: body, sched⟩).1 = .error .invalidBSON := by
  have hk : min 4 (sched.headD 4) = 4 := Nat.min_eq_left hs
  have hrecv : recv 4 (⟨b0 :: b1 :: b2 :: b3 :: body, sched⟩ : TcpStream)
      = ([b0, b1, b2, b3], ⟨body, sched.tail⟩) := by
    unfold recv
    dsimp only
    rw [hk]
    rfl
  rw [recv_dict, hrecv]
  dsimp only
  obtain ⟨q, hq, hqlen⟩ := recvLoop_extends (body.length + 1) (sInt32 (nat32 b0 b1 b2 b3))
    [b0, b1, b2, b3] ⟨body, sched.tail⟩
  have hqlen2 : q.length ≤ body.length := hqlen
  rw [show ([b0, b1, b2, b3] : List Nat) ++ q = b0 :: b1 :: b2 :: b3 :: q by simp] at hq
  have hdec : decode_all (recvLoop (body.length + 1) (sInt32 (nat32 b0 b1 b2 b3))
      [b0, b1, b2, b3] ⟨body, sched.tail⟩).1 = .error .invalidBSON := by
    rw [hq, decode_all]
    rw [show (b0 :: b1 :: b2 :: b3 :: q).length + 1 = (4 + q.length) + 1 by (simp; omega)]
    exact decodeAllAux_truncated b0 b1 b2 b3 q (4 + q.length)
      (by
        have hle : ((4 + q.length : Nat) : Int) ≤ ((4 + body.length : Nat) : Int) := by
          push_cast
          omega
        omega)
  rw [hdec]

/-- The accumulation loop is done as soon as the packet meets the target. -/
theorem recvLoop_done (f : Nat) (target : Int) (packet : List Nat) (s : TcpStream)
    (h : ¬ ((packet.length : Int) < target)) :
    recvLoop f target packet s = (packet, s) := by
  cases f with
  | zero => rfl
  | succ f => rw [recvLoop, if_neg h]

/-- With no schedule caps and exactly the missing bytes available, the
accumulation loop gathers the whole stream in one read. -/
theorem recvLoop_exact (f : Nat) (target : Int) (packet data : List Nat)
    (htarget : target = ((packet.length + data.length : Nat) : Int))
    (hdata : data ≠ []) (hf : 1 ≤ f) :
    recvLoop f target packet ⟨data, []⟩ = (packet ++ data, ⟨[], []⟩) := by
  cases f with
  | zero => omega
  | succ f =>
    rw [recvLoop]
    dsimp only
    have hlt : (packet.length : Int) < target := by
      subst htarget
      have : data.length ≠ 0 := fun e => hdata (List.eq_nil_of_length_eq_zero e)
      push_cast
      omega
    rw [if_pos hlt]
    have hk : (target - (packet.length : Int)).toNat = data.length := by
      subst htarget
      push_cast
      omega
    have hrecv : recv (target - (packet.length : Int)).toNat ⟨data, []⟩
        = (data, ⟨[], []⟩) := by
      unfold recv
      dsimp only
      rw [hk]
      simp
    rw [hrecv]
    dsimp only
    rw [if_neg (by simpa using hdata)]
    apply recvLoop_done
    subst htarget
    push_cast
    simp

/-- C9: round trip across the wire — the bytes `_send_dict` puts on the
socket for a command mapping, fed back through `_recv_dict`, decode to a
document structurally equal to the original mapping. -/
theorem recv_dict_send_dict (d : BDoc) (bs : List Nat) (h : send_dict d = some bs) :
    (recv_dict ⟨bs, []⟩).1 = .ok d := by
  have hdec := decode_all_encDoc d bs h
  rw [send_dict, encDoc] at h
  split at h
  case h_1 body heq =>
    split at h
    case isTrue hlen =>
      simp only [Option.some.injEq] at h
      subst h
      have hshape : le32 (body.length + 5) ++ body ++ [0]
          = (body.length + 5) % 256 :: (body.length + 5) / 256 % 256 ::
            (body.length + 5) / 65536 % 256 :: (body.length + 5) / 16777216 % 256 ::
            (body ++ [0]) := by
        simp [le32]
      rw [hshape] at hdec ⊢
      have hrecv : recv 4 (⟨(body.length + 5) % 256 :: (body.length + 5) / 256 % 256 ::
          (body.length + 5) / 65536 % 256 :: (body.length + 5) / 16777216 % 256 ::
          (body ++ [0]), []⟩ : TcpStream)
          = ([(body.length + 5) % 256, (body.length + 5) / 256 % 256,
              (body.length + 5) / 65536 % 256, (body.length + 5) / 16777216 % 256],
             ⟨body ++ [0], []⟩) := rfl
      rw [recv_dict, hrecv]
      dsimp only
      rw [show nat32 ((body.length + 5) % 256) ((body.length + 5) / 256 % 256)
          ((body.length + 5) / 65536 % 256) ((body.length + 5) / 16777216 % 256)
          = body.length + 5 from nat32_le32 (body.length + 5) (by omega)]
      rw [sInt32_ofNat (body.length + 5) hlen]
      have hloop := recvLoop_exact ((body ++ [0]).length + 1) ((body.length + 5 : Nat) : Int)
        [(body.length + 5) % 256, (body.length + 5) / 256 % 256,
         (body.length + 5) / 65536 % 256, (body.length + 5) / 16777216 % 256]
        (body ++ [0])
        (by push_cast; simp; ring)
        (by simp)
        (by omega)
      rw [hloop]
      dsimp only
      rw [show ([(body.length + 5) % 256, (body.length + 5) / 256 % 256,
          (body.length + 5) / 65536 % 256, (body.length + 5) / 16777216 % 256] : List Nat)
          ++ (body ++ [0]) = (body.length + 5) % 256 :: (body.length + 5) / 256 % 256 ::
          (body.length + 5) / 65536 % 256 :: (body.length + 5) / 16777216 % 256 ::
          (body ++ [0]) by simp]
      rw [hdec]
    case isFalse => exact absurd h (by simp)
  case h_2 => exact absurd h (by simp)

/-! ## The client error policy -/

/-- The complete behaviour of send-receive-check, by cases on the response
fields. -/
theorem sendAndCheck_spec (respond : BDoc → BDoc) (msg : BDoc) :
    sendAndCheck respond msg =
      match pyGet (respond msg) "RunVIState_Status" with
      | none => .ok (respond msg)
      | some st =>
        if truthy st then
          match pyGet (respond msg) "RunVIState_Code" with
          | none => .error (.keyError "RunVIState_Code")
          | some code =>
            match pyGet (respond msg) "RunVIState_Source" with
            | none => .error (.keyError "RunVIState_Source")
            | some src =>
              match pyGet (respond (describeMsg code st src)) "msg" with
              | some m => .error (.lvError code src m)
              | none => .error (.keyError "msg")
        else .ok (respond msg) := by
  rw [sendAndCheck, check_for_error]
  cases hst : pyGet (respond msg) "RunVIState_Status" with
  | none => rfl
  | some st =>
    cases htr : truthy st with
    | false => simp [htr]
    | true =>
      simp only [htr, if_true]
      cases hcode : pyGet (respond msg) "RunVIState_Code" with
      | none => simp
      | some code =>
        simp only []
        cases hsrc : pyGet (respond msg) "RunVIState_Source" with
        | none => simp
        | some src =>
          simp only []
          have hde : describe_error respond (errorDict code st src)
              = match pyGet (respond (describeMsg code st src)) "msg" with
                | some v => Except.ok v
                | none => Except.error (PyErr.keyError "msg") := rfl
          rw [hde]
          cases hm : pyGet (respond (describeMsg code st src)) "msg" with
          | none => rfl
          | some m => rfl

/-- Send-receive-check obeys the operation error policy. -/
theorem sendAndCheck_opPolicy (respond : BDoc → BDoc) (msg : BDoc) :
    opPolicy respond msg (sendAndCheck respond msg) := by
  rw [opPolicy]
  refine ⟨?_, ?_, ?_, ?_⟩
  · intro h
    rw [sendAndCheck_spec, h]
  · intro st hst hfalse
    rw [sendAndCheck_spec, hst]
    simp [hfalse]
  · intro st code src m hst htr hcode hsrc hm
    rw [sendAndCheck_spec, hst]
    simp [htr, hcode, hsrc, hm]
  · intro code src m hres
    rw [sendAndCheck_spec] at hres
    split at hres
    · exact absurd hres (by simp)
    case h_2 st hst =>
      split at hres
      case isTrue htr =>
        split at hres
        · exact absurd hres (by simp)
        case h_2 code1 hcode =>
          split at hres
          · exact absurd hres (by simp)
          case h_2 src1 hsrc =>
            split at hres
            case h_1 m1 hm =>
              simp only [Except.error.injEq, PyErr.lvError.injEq] at hres
              obtain ⟨hc, hs, hm1⟩ := hres
              subst hc
              subst hs
              subst hm1
              exact ⟨st, hst, htr, hcode, hsrc, hm⟩
            case h_2 => exact absurd hres (by simp)
      case isFalse => exact absurd hres (by simp)

/-- Send-receive-check obeys the missing-key policy. -/
theorem sendAndCheck_keyPolicy (respond : BDoc → BDoc) (msg : BDoc) :
    keyPolicy respond msg (sendAndCheck respond msg) := by
  rw [keyPolicy]
  refine ⟨?_, ?_, ?_⟩
  · intro hst hcode
    rw [sendAndCheck_spec, hst, hcode]
    rfl
  · intro code hst hcode hsrc
    rw [sendAndCheck_spec, hst, hcode, hsrc]
    rfl
  · intro code src m hres
    rw [sendAndCheck_spec] at hres
    split at hres
    · exact absurd hres (by simp)
    case h_2 st hst =>
      split at hres
      case isTrue htr =>
        split at hres
        · exact absurd hres (by simp)
        case h_2 code1 hcode =>
          split at hres
          · exact absurd hres (by simp)
          case h_2 src1 hsrc =>
            exact ⟨⟨st, hst⟩, ⟨code1, hcode⟩, ⟨src1, hsrc⟩⟩
      case isFalse => exact absurd hres (by simp)

/-! ## Process lifecycle theorems -/

/-- Finding the last match of a predicate via a left fold that overwrites its
accumulator equals searching the reversed list. -/
theorem foldl_overwrite_eq_find (procs : List (Nat × String)) (init : Option Nat) :
    procs.foldl (fun acc pr => if pr.2 = "LabVIEW.exe" then some pr.1 else acc) init
      = match procs.reverse.find? (fun pr => decide (pr.2 = "LabVIEW.exe")) with
        | some pr => some pr.1
        | none => init := by
  induction procs generalizing init with
  | nil => rfl
  | cons a l ih =>
    rw [List.foldl_cons, ih]
    have hsplit : (a :: l).reverse.find? (fun pr => decide (pr.2 = "LabVIEW.exe"))
        = match l.reverse.find? (fun pr => decide (pr.2 = "LabVIEW.exe")) with
          | some pr => some pr
          | none => if a.2 = "LabVIEW.exe" then some a else none := by
      rw [List.reverse_cons]
      induction l.reverse with
      | nil =>
        simp only [List.nil_append]
        by_cases ha : a.2 = "LabVIEW.exe"
        · rw [List.find?_cons_of_pos _ (by simpa using ha)]
          simp [ha]
        · rw [List.find?_cons_of_neg _ (by simpa using ha)]
          simp [ha]
      | cons b bs ihb =>
        simp only [List.cons_append]
        by_cases hb : b.2 = "LabVIEW.exe"
        · rw [List.find?_cons_of_pos _ (by simpa using hb),
            List.find?_cons_of_pos _ (by simpa using hb)]
        · rw [List.find?_cons_of_neg _ (by simpa using hb),
            List.find?_cons_of_neg _ (by simpa using hb)]
          exact ihb
    rw [hsplit]
    cases hfind : l.reverse.find? (fun pr => decide (pr.2 = "LabVIEW.exe")) with
    | some pr => rfl
    | none =>
      by_cases ha : a.2 = "LabVIEW.exe"
      · simp [ha]
      · simp [ha]

/-- C3 (amended): `start_with_args` always spawns exactly one process, even
when an existing LabVIEW.exe process was found.  The tracked pid becomes the
pid of the last process named LabVIEW.exe in the snapshot when one exists;
otherwise the freshly spawned pid is captured only when no pid was previously
tracked, the stale pid being kept (and the new pid discarded) otherwise. -/
theorem c3_start_with_args_amended (env : SpawnEnv) (pid0 : Option Nat) :
    (start_with_args env pid0).2 = 1 ∧
    (start_with_args env pid0).1 =
      (match env.procs.reverse.find? (fun pr => decide (pr.2 = "LabVIEW.exe")) with
       | some pr => some pr.1
       | none => match pid0 with
                 | none => some env.newPid
                 | some p => some p) := by
  rw [start_with_args]
  rw [foldl_overwrite_eq_find]
  cases hfind : env.procs.reverse.find? (fun pr => decide (pr.2 = "LabVIEW.exe")) with
  | some pr => exact ⟨rfl, rfl⟩
  | none =>
    cases pid0 with
    | none => exact ⟨rfl, rfl⟩
    | some p => exact ⟨rfl, rfl⟩

/-- C3 counterexample: with one running process named LabVIEW.exe (pid 42) and
no previously tracked pid, `start_with_args` adopts pid 42 as claimed but
still spawns one new process (second component 1, not 0), refuting "no new
process is spawned". -/
theorem c3_counterexample :
    start_with_args spawnEnvMatch none = (some 42, 1) ∧
    spawnEnvMatch.procs = [(42, "LabVIEW.exe")] :=
  ⟨rfl, rfl⟩

/-- C5: `process_is_running` is true exactly when the tracked pid names an
existing process whose executable path equals the tracked one under the
(case-insensitive) lowering, and that process reports itself running; in
particular a recycled pid with a different executable yields false. -/
theorem c5_is_running_iff (env : ProcEnv) (pid : Option Nat) (exe : String) :
    process_is_running env pid exe = true ↔
      ∃ p e, pid = some p ∧ env.exePath p = some e ∧ pyLower e = pyLower exe ∧
        env.running p = true := by
  unfold process_is_running get_process
  cases pid with
  | none => simp
  | some p =>
    cases he : env.exePath p with
    | none => simp [he]
    | some e =>
      by_cases hl : pyLower e = pyLower exe
      · simp only [he, hl, if_true]
        constructor
        · intro hr
          exact ⟨p, e, rfl, he, hl, hr⟩
        · rintro ⟨p1, e1, hp, he1, hl1, hr1⟩
          obtain rfl : p1 = p := by
            injection hp with h
            exact h.symm
          rw [he] at he1
          simp only [Option.some.injEq] at he1
          subst he1
          exact hr1
      · simp only [he]
        rw [if_neg hl]
        constructor
        · intro hr
          exact absurd hr (by simp)
        · rintro ⟨p1, e1, hp, he1, hl1, hr1⟩
          obtain rfl : p1 = p := by
            injection hp with h
            exact h.symm
          rw [he] at he1
          simp only [Option.some.injEq] at he1
          subst he1
          exact absurd hl1 hl

/-- C5 witness: a live process whose executable differs from the tracked path
only in letter case is reported running. -/
theorem c5_witness : process_is_running envLive (some 42) "C:\\LV\\LabVIEW.exe" = true :=
  (c5_is_running_iff envLive (some 42) "C:\\LV\\LabVIEW.exe").mpr
    ⟨42, "C:\\lv\\LabVIEW.exe", rfl, rfl, by decide, rfl⟩

/-- C7: `client()` fails with NotStartedError whenever the tracked process is
not running, fails with NotStartedError whenever the automation server was
configured off, and hands back a client bound to the host and configured port
only when the process runs and the server is on. -/
theorem c7_client_policy (env : ProcEnv) (pid : Option Nat) (exe host : String)
    (srv : Bool) (port : Nat) :
    (process_is_running env pid exe = false →
      lvClient env pid exe host srv port = .error .notStarted) ∧
    (srv = false → lvClient env pid exe host srv port = .error .notStarted) ∧
    (∀ c, lvClient env pid exe host srv port = .ok c →
      process_is_running env pid exe = true ∧ srv = true ∧ c = ⟨host, port⟩) := by
  unfold lvClient
  refine ⟨?_, ?_, ?_⟩
  · intro h
    rw [if_pos (by simp [h])]
  · intro h
    split
    · rfl
    · rw [if_pos (by simp [h])]
  · intro c hc
    split at hc
    · exact absurd hc (by simp)
    case isFalse h1 =>
      split at hc
      · exact absurd hc (by simp)
      case isFalse h2 =>
        simp only [Except.ok.injEq] at hc
        exact ⟨by simpa using h1, by simpa using h2, hc.symm⟩

/-- C7 witness: with the process running but the automation server configured
off, `client()` raises NotStartedError. -/
theorem c7_witness :
    lvClient envLive (some 42) "C:\\lv\\LabVIEW.exe" "localhost" false 2552
      = .error .notStarted :=
  (c7_client_policy envLive (some 42) "C:\\lv\\LabVIEW.exe" "localhost" false 2552).2.1 rfl

/-- C8: killing twice in a row with the default (no) timeout never raises and
leaves the tracked pid none, and killing a handle matched by no process is a
silent no-op that still clears the pid. -/
theorem c8_kill_idempotent (env : ProcEnv) (pid : Option Nat) (exe : String) :
    (∃ env1, lvKill env pid exe none = .ok (none, env1) ∧
      lvKill env1 none exe none = .ok (none, env1)) ∧
    (get_process env pid exe = none → lvKill env pid exe none = .ok (none, env)) := by
  constructor
  · cases hg : get_process env pid exe with
    | none => exact ⟨env, by rw [lvKill, kill_process, hg], rfl⟩
    | some p => exact ⟨removeProc env p, by rw [lvKill, kill_process, hg], rfl⟩
  · intro hg
    rw [lvKill, kill_process, hg]

/-- C8 witness: killing a handle whose pid has been recycled by a different
executable (so no process matches) returns silently with the pid cleared. -/
theorem c8_witness :
    lvKill envRecycled (some 42) "C:\\lv\\LabVIEW.exe" none = .ok (none, envRecycled) :=
  (c8_kill_idempotent envRecycled (some 42) "C:\\lv\\LabVIEW.exe").2 rfl

/-- C4 (amended): `kill(timeout)` clears the tracked pid whenever
`kill_process` returns (no matched process, no timeout given, or exit within
the timeout); but when the wait times out, psutil's TimeoutExpired propagates
out of `kill` before the clearing assignment runs, so the caller sees the
exception — exactly when a process is matched, a finite timeout was given,
and the process does not exit within it. -/
theorem c4_kill_amended (env : ProcEnv) (pid : Option Nat) (exe : String) (tmo : Option Nat) :
    (∀ r, lvKill env pid exe tmo = .ok r → r.1 = none) ∧
    (lvKill env pid exe tmo = .error .timeoutExpired ↔
      ∃ p t, get_process env pid exe = some p ∧ tmo = some t ∧ env.exits p t = false) := by
  constructor
  · intro r hr
    rw [lvKill] at hr
    split at hr
    · simp only [Except.ok.injEq] at hr
      subst hr
      rfl
    · exact absurd hr (by simp)
  · constructor
    · intro he
      rw [lvKill] at he
      split at he
      · exact absurd he (by simp)
      case h_2 e heq =>
        rw [kill_process] at heq
        split at heq
        · exact absurd heq (by simp)
        · rename_i p hp
          split at heq
          · exact absurd heq (by simp)
          · rename_i t ht
            split at heq
            · exact absurd heq (by simp)
            · rename_i hex
              exact ⟨p, ht, hp, rfl, by simpa using hex⟩
    · rintro ⟨p, t, hp, ht, hex⟩
      subst ht
      rw [lvKill, kill_process, hp]
      simp [hex]

/-- C4 counterexample: a matched process that does not exit within the 5 s
timeout makes `kill` raise TimeoutExpired instead of clearing the pid,
refuting "sets the tracked pid to none unconditionally ... a kill timeout is
never propagated". -/
theorem c4_counterexample :
    lvKill envHung (some 42) "C:\\lv\\LabVIEW.exe" (some 5) = .error .timeoutExpired := rfl

/-- C4 witness: a process that exits within the timeout is killed and the pid
is cleared. -/
theorem c4_witness :
    lvKill envLive (some 42) "C:\\lv\\LabVIEW.exe" (some 5)
        = .ok (none, removeProc envLive 42) ∧
    ((none : Option Nat), removeProc envLive 42).1 = none :=
  ⟨rfl, (c4_kill_amended envLive (some 42) "C:\\lv\\LabVIEW.exe" (some 5)).1
    (none, removeProc envLive 42) rfl⟩

/-! ## The readiness wait -/

/-- The wait raises TimeoutError after the first failed probe past the
deadline when every earlier probe also failed. -/
theorem waitLoop_timeout (probe : Nat → Bool) (clock : Nat → Nat) (T : Nat) :
    ∀ (f i j : Nat), i ≤ j → (∀ k, i ≤ k → k ≤ j → probe k = false) →
      (∀ k, i ≤ k → k < j → clock k ≤ T) → T < clock j → j - i < f →
      waitLoop probe clock T f i = .timeoutError j := by
  intro f
  induction f with
  | zero => intro i j _ _ _ _ hf; omega
  | succ f ih =>
    intro i j hij hfail hpre hj hf
    rw [waitLoop]
    rw [if_neg (by simp [hfail i (Nat.le_refl i) hij])]
    by_cases heq : i = j
    · subst heq
      rw [if_pos hj]
    · rw [if_neg (by have := hpre i (Nat.le_refl i) (by omega); omega)]
      exact ih (i + 1) j (by omega) (fun k h1 h2 => hfail k (by omega) h2)
        (fun k h1 h2 => hpre k (by omega) h2) hj (by omega)

/-- A TimeoutError is only ever raised at a failed probe past the deadline. -/
theorem waitLoop_timeout_clock (probe : Nat → Bool) (clock : Nat → Nat) (T : Nat) :
    ∀ (f i j : Nat), waitLoop probe clock T f i = .timeoutError j →
      T < clock j ∧ probe j = false := by
  intro f
  induction f with
  | zero => intro i j h; exact absurd h (by rw [waitLoop]; simp)
  | succ f ih =>
    intro i j h
    rw [waitLoop] at h
    split at h
    · exact absurd h (by simp)
    · split at h
      case isTrue hc =>
        simp only [WaitResult.timeoutError.injEq] at h
        subst h
        next hp => exact ⟨hc, by simpa using hp⟩
      case isFalse => exact ih (i + 1) j h

/-- While within the deadline, a failed probe just retries. -/
theorem waitLoop_retry (probe : Nat → Bool) (clock : Nat → Nat) (T f i : Nat)
    (h1 : probe i = false) (h2 : clock i ≤ T) :
    waitLoop probe clock T (f + 1) i = waitLoop probe clock T f (i + 1) := by
  rw [waitLoop, if_neg (by simp [h1]), if_neg (by omega)]

/-- The first successful probe ends the wait successfully, provided no earlier
failure fell past the deadline. -/
theorem waitLoop_success (probe : Nat → Bool) (clock : Nat → Nat) (T : Nat) :
    ∀ (f i j : Nat), i ≤ j → (∀ k, i ≤ k → k < j → probe k = false ∧ clock k ≤ T) →
      probe j = true → j - i < f →
      waitLoop probe clock T f i = .success j := by
  intro f
  induction f with
  | zero => intro i j _ _ _ hf; omega
  | succ f ih =>
    intro i j hij hpre hj hf
    by_cases heq : i = j
    · subst heq
      rw [waitLoop, if_pos hj]
    · obtain ⟨hp, hc⟩ := hpre i (Nat.le_refl i) (by omega)
      rw [waitLoop, if_neg (by simp [hp]), if_neg (by omega)]
      exact ih (i + 1) j (by omega) (fun k h1 h2 => hpre k (by omega) h2) hj (by omega)

/-- C6 (amended): the readiness wait raises TimeoutError exactly when every
probe up to and including the first probe checked after the deadline fails —
the error is raised no earlier than the timeout (the elapsed time at the
raise strictly exceeds it); while the elapsed time is within the deadline a
failed probe retries; and a successful probe ends the wait, even one first
occurring after the deadline (so "no success within T seconds" alone does
not force a TimeoutError). -/
theorem c6_wait_amended (probe : Nat → Bool) (clock : Nat → Nat) (T fuel j : Nat) :
    ((∀ k, k ≤ j → probe k = false) → (∀ k, k < j → clock k ≤ T) → T < clock j →
      j < fuel → waitLoop probe clock T fuel 0 = .timeoutError j) ∧
    (∀ f i, waitLoop probe clock T f i = .timeoutError j → T < clock j ∧ probe j = false) ∧
    (∀ f i, probe i = false → clock i ≤ T →
      waitLoop probe clock T (f + 1) i = waitLoop probe clock T f (i + 1)) ∧
    ((∀ k, k < j → probe k = false ∧ clock k ≤ T) → probe j = true → j < fuel →
      waitLoop probe clock T fuel 0 = .success j) :=
  ⟨fun h1 h2 h3 h4 => waitLoop_timeout probe clock T fuel 0 j (Nat.zero_le j)
      (fun k _ hk => h1 k hk) (fun k _ hk => h2 k hk) h3 (by omega),
   fun f i => waitLoop_timeout_clock probe clock T f i j,
   fun f i => waitLoop_retry probe clock T f i,
   fun h1 h2 h3 => waitLoop_success probe clock T fuel 0 j (Nat.zero_le j)
      (fun k _ hk => h1 k hk) h2 (by omega)⟩

/-- C6 counterexample: probe 0 fails at 3 s (within T = 5 s) and probe 1 —
the first probe after the deadline — succeeds at 10 s, so no probe succeeds
within T seconds of entering the wait, yet the wait ends successfully and no
TimeoutError is raised, refuting the claim's "fails with TimeoutError". -/
theorem c6_counterexample :
    waitLoop cProbe cClock 5 10 0 = .success 1 ∧
    cProbe 0 = false ∧ cClock 0 ≤ 5 ∧ cProbe 1 = true ∧ 5 < cClock 1 := by
  decide

/-- C6 witness: with every probe failing, probe 0 checked at 3 s and probe 1
checked at 10 s, the wait raises TimeoutError at probe 1, past the 5 s
deadline. -/
theorem c6_witness :
    waitLoop cProbeFail cClock 5 10 0 = .timeoutError 1 ∧ cClock 1 = 10 :=
  ⟨(c6_wait_amended cProbeFail cClock 5 10 1).1
      (fun k _ => rfl)
      (fun k hk => by
        have hk0 : k = 0 := by omega
        subst hk0
        decide)
      (by decide) (by decide),
   rfl⟩

/-! ## Claim-level theorems for the wire client -/

/-- C2 witness: a concrete truncated stream — the length field declares 32
bytes, the peer closes after delivering 10 — makes `_recv_dict` fail with the
protocol error. -/
theorem c2_witness : (recv_dict truncStream).1 = .error .invalidBSON :=
  recv_dict_truncated 32 0 0 0 [8, 65, 0, 1, 16, 66] [] (by decide) (by decide)

set_option maxRecDepth 4000 in
/-- C9 witness: a concrete command document exercising strings, int32, int64,
negative integers, booleans, null, a nested document and an array encodes
successfully and decodes back to itself through `_recv_dict`. -/
theorem c9_witness :
    encDoc docW = some bytesW ∧ (recv_dict ⟨bytesW, []⟩).1 = .ok docW :=
  ⟨rfl, recv_dict_send_dict docW bytesW rfl⟩

/-- C1 (amended): for each of run_vi_synchronous, set_controls and
get_indicators, the operation raises the structured remote error iff the
decoded response carries 'RunVIState_Status' with a *truthy* value (not only
boolean true: any value Python truth-testing accepts, such as a nonzero
integer) — provided the code/source lookups and the describe_error 'msg'
lookup succeed; the error carries code = response['RunVIState_Code'],
source = response['RunVIState_Source'] and the describe_error message; a
response with the status key absent, or present with a falsy value, is
returned unchanged. -/
theorem c1_error_policy (respond : BDoc → BDoc) (a1 a2 a3 a4 a5 : BVal) :
    opPolicy respond (runViMsg a1 a2 a3 a4 a5)
      (run_vi_synchronous respond a1 a2 a3 a4 a5) ∧
    opPolicy respond (setControlsMsg a1 a2 a3 a4 a5)
      (set_controls respond a1 a2 a3 a4 a5) ∧
    opPolicy respond (getIndicatorsMsg a1 a2 a3 a4)
      (get_indicators respond a1 a2 a3 a4) :=
  ⟨sendAndCheck_opPolicy respond (runViMsg a1 a2 a3 a4 a5),
   sendAndCheck_opPolicy respond (setControlsMsg a1 a2 a3 a4 a5),
   sendAndCheck_opPolicy respond (getIndicatorsMsg a1 a2 a3 a4)⟩

/-- C1 counterexample: a response whose status field holds the integer 1 —
truthy but not the boolean true — still makes run_vi_synchronous raise the
structured remote error, refuting "raises ... if and only if the decoded
response mapping contains the key 'RunVIState_Status' with value true". -/
theorem c1_counterexample :
    run_vi_synchronous respondTruthyInt (.str "p") (.int 0) (.bool false) (.doc .nil) (.arr .nil)
      = .error (.lvError (.int 7) (.str "src") (.str "boom")) ∧
    pyGet (respondTruthyInt
        (runViMsg (.str "p") (.int 0) (.bool false) (.doc .nil) (.arr .nil)))
      "RunVIState_Status" = some (.int 1) ∧
    BVal.int 1 ≠ BVal.bool true :=
  ⟨rfl, rfl, fun h => BVal.noConfusion h⟩

/-- C1 witness: a boolean-true status with code 42 and source X raises the
structured remote error carrying the describe_error message. -/
theorem c1_witness :
    run_vi_synchronous respondBoolTrue (.str "p") (.int 0) (.bool false) (.doc .nil) (.arr .nil)
      = .error (.lvError (.int 42) (.str "X") (.str "boom")) :=
  (c1_error_policy respondBoolTrue (.str "p") (.int 0) (.bool false)
      (.doc .nil) (.arr .nil)).1.2.2.1
    (.bool true) (.int 42) (.str "X") (.str "boom") rfl rfl rfl rfl rfl

/-- C10: for each of the three operations, a response with a true status but
no 'RunVIState_Code' key fails with that key's KeyError (and with the code
present but no 'RunVIState_Source' key, with the source KeyError) rather than
a structured remote error; a structured remote error is only ever raised from
a response carrying all three fields. -/
theorem c10_missing_keys (respond : BDoc → BDoc) (a1 a2 a3 a4 a5 : BVal) :
    keyPolicy respond (runViMsg a1 a2 a3 a4 a5)
      (run_vi_synchronous respond a1 a2 a3 a4 a5) ∧
    keyPolicy respond (setControlsMsg a1 a2 a3 a4 a5)
      (set_controls respond a1 a2 a3 a4 a5) ∧
    keyPolicy respond (getIndicatorsMsg a1 a2 a3 a4)
      (get_indicators respond a1 a2 a3 a4) :=
  ⟨sendAndCheck_keyPolicy respond (runViMsg a1 a2 a3 a4 a5),
   sendAndCheck_keyPolicy respond (setControlsMsg a1 a2 a3 a4 a5),
   sendAndCheck_keyPolicy respond (getIndicatorsMsg a1 a2 a3 a4)⟩

/-- C10 witness: a true status with the code key absent makes
run_vi_synchronous fail with the code KeyError. -/
theorem c10_witness :
    run_vi_synchronous respondNoCode (.str "p") (.int 0) (.bool false) (.doc .nil) (.arr .nil)
      = .error (.keyError "RunVIState_Code") :=
  (c10_missing_keys respondNoCode (.str "p") (.int 0) (.bool false)
      (.doc .nil) (.arr .nil)).1.1 rfl rfl
